import Mathlib

/-!
Shallow embedding of the analytics core of the Eureka-aignite repository:
the ensemble forecaster (`src/models/forecasting.py`), the anomaly detector
(`src/models/anomaly.py`), the inventory optimizer (`src/models/inventory.py`)
and the walk-forward accuracy evaluator
(`ForecastingEngine.calculate_accuracy`).

Quantities are exact rationals; standard deviations (square roots) live in ℝ.
Python exceptions are modelled by `Option`: `none` means the call raised.
-/

namespace Eureka

/-- Arithmetic mean of a list of rationals (`pandas .mean()`); the empty
list yields `0/0 = 0` by the rational-division convention. -/
def mean (l : List ℚ) : ℚ := l.sum / l.length

/-- The last `n` elements of a list (`pandas .tail(n)`). -/
def lastN (n : ℕ) (l : List α) : List α := l.drop (l.length - n)

/-- Sample variance with `ddof = 1` (`pandas .std() ** 2`).  A list with at
most one element has an undefined sample deviation; `pandas` produces `NaN`
there and every use site in the source immediately replaces it with `0`
(`.fillna(0)`), which this definition builds in. -/
def sampleVar (l : List ℚ) : ℚ :=
  if l.length ≤ 1 then 0
  else ((l.map (fun x => (x - mean l) ^ 2)).sum) / ((l.length : ℚ) - 1)

/-- Population variance with `ddof = 0` (`np.std(values) ** 2`). -/
def popVar (l : List ℚ) : ℚ :=
  ((l.map (fun x => (x - mean l) ^ 2)).sum) / (l.length : ℚ)

/-- One row of the per-product sales history: the calendar date is encoded
as a day number (days since an epoch that falls on weekday 0), so
`date % 7` is `pandas`' `dt.dayofweek`.  `units` is the `units_sold` value. -/
structure SalesPoint where
  date : ℕ
  units : ℚ
deriving DecidableEq, Repr

/-- The `units_sold` column of the series. -/
def seriesUnits (s : List SalesPoint) : List ℚ := s.map (·.units)

/-! ### ForecastingEngine: component models (`forecasting.py`, lines 27-61) -/

/-- `ewma_forecast(span=14)` value at the last observed index:
`ewm(span=span, adjust=False)` is the recursion `e_0 = y_0`,
`e_k = (1-α) e_{k-1} + α y_k` with `α = 2/(span+1)`. -/
def ewmaLast (span : ℚ) (l : List ℚ) : ℚ :=
  let a : ℚ := 2 / (span + 1)
  match l with
  | [] => 0
  | y :: ys => ys.foldl (fun e y2 => (1 - a) * e + a * y2) y

/-- The regressor column of `linear_trend`: the positional day index
`0, 1, …, n-1` (`self.data[['day_index']]`). -/
def olsXs (s : List SalesPoint) : List ℚ := (List.range s.length).map (fun i => (i : ℚ))

/-- Mean of the day-index column. -/
def olsXbar (s : List SalesPoint) : ℚ := mean (olsXs s)

/-- `linear_trend`: ordinary least-squares slope of `units_sold` against the
positional day index (what `sklearn.LinearRegression` fits). -/
def olsSlope (s : List SalesPoint) : ℚ :=
  ((List.zipWith (fun x y => (x - olsXbar s) * (y - mean (seriesUnits s)))
      (olsXs s) (seriesUnits s)).sum) /
    (((olsXs s).map (fun x => (x - olsXbar s) ^ 2)).sum)

/-- `linear_trend`: the fitted intercept. -/
def olsIntercept (s : List SalesPoint) : ℚ :=
  mean (seriesUnits s) - olsSlope s * olsXbar s

/-- `model.predict([[t]])` for the fitted linear trend. -/
def linPredict (s : List SalesPoint) (t : ℚ) : ℚ := olsIntercept s + olsSlope s * t

/-- `seasonal_pattern`: the `units_sold` values sharing day-of-week `w`
(the `groupby('day_of_week')` group). -/
def weekdayGroup (s : List SalesPoint) (w : ℕ) : List ℚ :=
  seriesUnits (s.filter (fun p => p.date % 7 == w))

/-- A weekday occurs somewhere in the history. -/
def weekdayPresent (s : List SalesPoint) (w : ℕ) : Prop := weekdayGroup s w ≠ []

instance (s : List SalesPoint) (w : ℕ) : Decidable (weekdayPresent s w) :=
  inferInstanceAs (Decidable (weekdayGroup s w ≠ []))

/-- The weekdays that occur in the history (the index of the `groupby` mean). -/
def presentWeekdays (s : List SalesPoint) : List ℕ :=
  (List.range 7).filter (fun w => !(weekdayGroup s w).isEmpty)

/-- `pattern.mean()`: the unweighted mean over the per-weekday means —
taken over the weekdays that occur, not over the raw series. -/
def patternMeanOfMeans (s : List SalesPoint) : ℚ :=
  mean ((presentWeekdays s).map (fun w => mean (weekdayGroup s w)))

/-- `seasonal_pattern()` followed by the `seasonal[day_of_week]` lookup in
`ensemble_forecast`: the normalized factor for weekday `w`, or `none` when
`w` never occurs in the history (a `KeyError` in the source). -/
def seasonalFactor (s : List SalesPoint) (w : ℕ) : Option ℚ :=
  if weekdayGroup s w = [] then none
  else some (mean (weekdayGroup s w) / patternMeanOfMeans s)

/-! ### ForecastingEngine: ensemble (`forecasting.py`, lines 63-115) -/

/-- `recent_avg`: the plain mean of the last (at most) 14 observed
`units_sold` values (`self.data.tail(14)['units_sold'].mean()`). -/
def recentAvg (s : List SalesPoint) : ℚ := mean (lastN 14 (seriesUnits s))

/-- `recent_trend`: `(tail(14).iloc[-1] - tail(14).iloc[0]) / 14` — last
minus first raw quantity of the 14-point tail, divided by the constant 14. -/
def recentTrend (s : List SalesPoint) : ℚ :=
  let t := lastN 14 (seriesUnits s)
  ((t.getLast?).getD 0 - (t.head?).getD 0) / 14

/-- `self.data['date'].max()` as a day number. -/
def lastDate (s : List SalesPoint) : ℕ := (s.map (·.date)).foldl max 0

/-- The body of one iteration of the forecast loop (`forecasting.py`,
lines 90-113, value part): `i` is the 0-based loop counter, the forecast
date is `last_date + (i+1)` days, `day_idx = len(data) + i`.  `none`
models the `KeyError` of `seasonal[day_of_week]` for an absent weekday. -/
def forecastAt (s : List SalesPoint) (i : ℕ) : Option ℚ :=
  (seasonalFactor s ((lastDate s + i + 1) % 7)).map (fun sf =>
    max 0 (3/10 * linPredict s ((s.length : ℚ) + (i : ℚ)) +
           4/10 * (recentAvg s + recentTrend s * (i : ℚ)) +
           3/10 * (recentAvg s * sf)))

/-- Sequence a list of optional values: the loop aborts (the exception
propagates) at the first `none`, otherwise all values are collected in
order. -/
def seqOpt : List (Option α) → Option (List α)
  | [] => some []
  | none :: _ => none
  | some a :: rest => (seqOpt rest).map (a :: ·)

/-- `ensemble_forecast(forecast_days)`, point-estimate list: `some` of the
`forecasts` list on normal return, `none` when an iteration raises. -/
def ensembleForecastValues (s : List SalesPoint) (h : ℕ) : Option (List ℚ) :=
  seqOpt ((List.range h).map (forecastAt s))

/-- `historical_std`: `self.data['units_sold'].tail(30).std()`
(sample standard deviation of the last 30 observations). -/
noncomputable def histStd30 (s : List SalesPoint) : ℝ :=
  Real.sqrt (sampleVar (lastN 30 (seriesUnits s)))

/-- The `confidences` list of `ensemble_forecast`: the loop appends
`1.96 * historical_std` on every iteration, with no dependence on the
loop counter. -/
noncomputable def forecastConfidences (s : List SalesPoint) (h : ℕ) : List ℝ :=
  (List.range h).map (fun _ => (1.96 : ℝ) * histStd30 s)

/-! ### AccuracyEvaluator (`forecasting.py`, lines 117-148) -/

/-- `mean_absolute_error(actual, pred)`. -/
def calcMae (actual pred : List ℚ) : ℚ :=
  mean (List.zipWith (fun a p => |a - p|) actual pred)

/-- `np.mean(np.abs((actual - pred) / actual)) * 100 if np.all(actual > 0)
else None`. -/
def calcMape (actual pred : List ℚ) : Option ℚ :=
  if actual.all (fun a => 0 < a) then
    some (mean (List.zipWith (fun a p => |(a - p) / a|) actual pred) * 100)
  else none

/-- `calculate_accuracy`: the outer `none` models a runtime error escaping
the call (the forecast raising inside); `some none` is the explicit
`return None` for insufficient history; `some (some r)` is a normal report
`(mae, mape)`. -/
def calculateAccuracy (s : List SalesPoint) : Option (Option (ℚ × Option ℚ)) :=
  if s.length < 30 then some none
  else
    let train := s.take (s.length - 7)
    let test := lastN 7 s
    if train.length < 14 then some none
    else
      match ensembleForecastValues train 7 with
      | none => none
      | some pred =>
          let actual := seriesUnits test
          some (some (calcMae actual pred, calcMape actual pred))

/-! ### Spec-side point-estimate formula

The specification describes the level component in terms of the EWMA series
and the seasonal factor as normalized by the overall series mean.  This
definition follows the specification's words (not the source) so that it
can be compared against `ensembleForecastValues`; `i` is the 1-based future
offset of the specification. -/

/-- `ewm(span=14, adjust=False)` value at position `k` (0-based) of the
series — the fold over the first `k+1` observations. -/
def ewmaAt (span : ℚ) (l : List ℚ) (k : ℕ) : ℚ := ewmaLast span (l.take (k + 1))

/-- The specification's point-estimate formula for future offset `i ≥ 1`:
`linear` at index `last_index + i`; `level = recent_average +
recent_trend * i` with `recent_average` the EWMA value at the last
observed index and `recent_trend = (EWMA at last index - value 14
positions earlier) / 14`; `seasonal = recent_average * factor(weekday)`
with the per-weekday mean normalized by the overall mean of the series. -/
def specPointEstimate (s : List SalesPoint) (i : ℕ) : ℚ :=
  max 0 (3/10 * linPredict s ((s.length : ℚ) - 1 + (i : ℚ)) +
    4/10 * (ewmaAt 14 (seriesUnits s) (s.length - 1) +
      (ewmaAt 14 (seriesUnits s) (s.length - 1) -
        ewmaAt 14 (seriesUnits s) (s.length - 1 - 14)) / 14 * (i : ℚ)) +
    3/10 * (ewmaAt 14 (seriesUnits s) (s.length - 1) *
      (mean (weekdayGroup s ((lastDate s + i) % 7)) / mean (seriesUnits s))))

/-! ### AnomalyDetector (`anomaly.py`) -/

/-- The trailing rolling window ending at position `t`:
`rolling(window=w, min_periods=1)` sees the last at-most-`w` values of the
first `t+1`. -/
def windowAt (l : List ℚ) (w t : ℕ) : List ℚ := lastN w (l.take (t + 1))

/-- `rolling_mean` at position `t`. -/
def rollingMean (l : List ℚ) (w t : ℕ) : ℚ := mean (windowAt l w t)

/-- `rolling_std` at position `t`, squared: the sample variance of the
window, with the single-observation `NaN` already replaced by `0`
(`.fillna(0)`). -/
def rollingVar (l : List ℚ) (w t : ℕ) : ℚ := sampleVar (windowAt l w t)

/-- Insert into a sorted list (ascending). -/
def insertSorted (x : ℚ) : List ℚ → List ℚ
  | [] => [x]
  | y :: ys => if x ≤ y then x :: y :: ys else y :: insertSorted x ys

/-- Sort ascending (insertion sort). -/
def sortAsc (l : List ℚ) : List ℚ := l.foldr insertSorted []

/-- `Series.quantile(p)` with the default linear interpolation: position
`h = p * (n - 1)` in the sorted values, interpolating between the two
neighbouring order statistics. -/
def quantile (l : List ℚ) (p : ℚ) : ℚ :=
  let v := sortAsc l
  let hpos : ℚ := p * ((l.length : ℚ) - 1)
  let lo : ℕ := (⌊hpos⌋).toNat
  let frac : ℚ := hpos - (lo : ℚ)
  v.getD lo 0 + frac * (v.getD (lo + 1) 0 - v.getD lo 0)

/-- `Q3 + 1.5 * IQR` over the whole series. -/
def iqrUpper (l : List ℚ) : ℚ :=
  quantile l (3/4) + 3/2 * (quantile l (3/4) - quantile l (1/4))

/-- `Q1 - 1.5 * IQR` over the whole series. -/
def iqrLower (l : List ℚ) : ℚ :=
  quantile l (1/4) - 3/2 * (quantile l (3/4) - quantile l (1/4))

/-- The `is_anomaly` flag at position `t`.  The source compares against
`rolling_mean ± c * rolling_std`; with `std = sqrt(var)` irrational, the two
rolling comparisons are encoded in the equivalent squared form
`q > m + c*sqrt(v) ↔ q > m ∧ (q-m)² > c²*v` (for `c, v ≥ 0`; the
equivalence is proved in `gt_add_mul_sqrt_iff` below), keeping the flag
decidable. -/
def isAnomalyAt (l : List ℚ) (w : ℕ) (c : ℚ) (t : ℕ) : Bool :=
  let q := l.getD t 0
  let m := rollingMean l w t
  let v := rollingVar l w t
  (decide (q > m) && decide ((q - m) ^ 2 > c ^ 2 * v)) ||
  (decide (q < m) && decide ((m - q) ^ 2 > c ^ 2 * v)) ||
  decide (q > iqrUpper l) ||
  decide (q < iqrLower l)

/-- `anomaly_severity` at position `t`:
`|q - rolling_mean| / (rolling_std + 1)` when flagged, else `0`. -/
noncomputable def severityAt (l : List ℚ) (w : ℕ) (c : ℚ) (t : ℕ) : ℝ :=
  if isAnomalyAt l w c t then
    |((l.getD t 0 : ℚ) : ℝ) - (rollingMean l w t : ℝ)| /
      (Real.sqrt (rollingVar l w t) + 1)
  else 0

/-- One output row of `detect_anomalies_advanced`. -/
structure AnomalyRecord where
  units : ℚ
  rollMean : ℚ
  rollStd : ℝ
  isAnomaly : Bool
  severity : ℝ

/-- `detect_anomalies_advanced(data, window, std_threshold)`: one record per
input point, in input order. -/
noncomputable def detectAnomalies (l : List ℚ) (w : ℕ) (c : ℚ) : List AnomalyRecord :=
  (List.range l.length).map (fun t =>
    { units := l.getD t 0
      rollMean := rollingMean l w t
      rollStd := Real.sqrt (rollingVar l w t)
      isAnomaly := isAnomalyAt l w c t
      severity := severityAt l w c t })

/-! ### InventoryOptimizer (`inventory.py`) -/

/-- The `try: from scipy.stats import norm; z = norm.ppf(service_level)
except: z = 1.65` block: the inverse-normal facility is an optional
injected capability; when absent (the import fails) the constant `1.65`
is used.  A present facility can report a non-finite value — `norm.ppf`
yields `NaN`/`±inf` for arguments outside `(0, 1)` — modelled as `none`,
since IEEE special values have no counterpart in `ℝ`. -/
noncomputable def zScore (ppf : Option (ℝ → Option ℝ)) (serviceLevel : ℝ) :
    Option ℝ :=
  match ppf with
  | some f => f serviceLevel
  | none => some 1.65

/-- `daily_demand = total_demand / len(forecast_values)`. -/
def dailyDemand (fv : List ℚ) : ℚ := fv.sum / fv.length

/-- `forecast_std = np.std(forecast_values)` (population standard
deviation). -/
noncomputable def forecastStd (fv : List ℚ) : ℝ := Real.sqrt (popVar fv)

/-- `lead_time_demand = daily_demand * lead_time`. -/
noncomputable def leadTimeDemand (fv : List ℚ) (leadTime : ℝ) : ℝ :=
  (dailyDemand fv : ℝ) * leadTime

/-- `safety_stock = z_score * (forecast_std * np.sqrt(lead_time))`. -/
noncomputable def safetyStock (fv : List ℚ) (leadTime z : ℝ) : ℝ :=
  z * (forecastStd fv * Real.sqrt leadTime)

/-- `reorder_point = lead_time_demand + safety_stock`. -/
noncomputable def reorderPoint (fv : List ℚ) (leadTime z : ℝ) : ℝ :=
  leadTimeDemand fv leadTime + safetyStock fv leadTime z

/-- `should_order`: the branch condition `stock_position <= reorder_point`. -/
def shouldOrder (fv : List ℚ) (stock leadTime z : ℝ) : Prop :=
  stock ≤ reorderPoint fv leadTime z

/-- `order_quantity`: `(reorder_point - stock_position) + daily_demand * 7`
when the reorder branch is taken, else `0`. -/
noncomputable def orderQuantity (fv : List ℚ) (stock leadTime z : ℝ) : ℝ :=
  if stock ≤ reorderPoint fv leadTime z then
    (reorderPoint fv leadTime z - stock) + (dailyDemand fv : ℝ) * 7
  else 0

/-- `days_until_stockout`: `stock / daily_demand` when demand is positive,
else the sentinel `999`. -/
noncomputable def daysUntilStockout (fv : List ℚ) (stock : ℝ) : ℝ :=
  if 0 < dailyDemand fv then stock / (dailyDemand fv : ℝ) else 999

/-- `dynamic_buffer = max(0.15, min(0.35, cv * 0.5))` with
`cv = forecast_std / daily_demand if daily_demand > 0 else 0`. -/
noncomputable def dynamicBuffer (fv : List ℚ) : ℝ :=
  let cv : ℝ := if 0 < dailyDemand fv then forecastStd fv / (dailyDemand fv : ℝ) else 0
  max 0.15 (min 0.35 (cv * 0.5))

/-- The dict returned by `calculate_optimal_inventory`.  The source rounds
several fields for display (`round(...)`); the fields here carry the exact
pre-rounding quantities, which is what every stated property concerns. -/
structure InventoryPlan where
  reorderPt : ℝ
  orderQty : ℝ
  safety : ℝ
  shouldOrd : Prop
  daily : ℚ
  totalForecast : ℚ
  buffer : ℝ
  stockPosition : ℝ
  daysUntilOut : ℝ
  confidenceInterval : ℚ

/-- `calculate_optimal_inventory(forecast_values, confidences,
current_stock, lead_time, service_level)`.  The function performs no
parameter validation, yet it can still raise (`none`): an empty forecast
list raises `ZeroDivisionError` at `total_demand / len(...)`; a
non-finite `z` (the real inverse normal on a service level outside
`(0, 1)`) or a negative lead time (`np.sqrt` of a negative is `NaN`)
propagates into `reorder_point`, so the terminal `round(reorder_point)`
raises `ValueError`/`OverflowError`.  For a finite `z` and a
non-negative lead time every intermediate value is finite and a plan is
returned (the 2-argument `round(x, 1)` calls never raise). -/
noncomputable def calculateOptimalInventory (fv conf : List ℚ)
    (stock leadTime serviceLevel : ℝ) (ppf : Option (ℝ → Option ℝ)) :
    Option InventoryPlan :=
  if fv.length = 0 then none
  else
    (zScore ppf serviceLevel).bind (fun z =>
      if leadTime < 0 then none
      else
        some
          { reorderPt := reorderPoint fv leadTime z
            orderQty := orderQuantity fv stock leadTime z
            safety := safetyStock fv leadTime z
            shouldOrd := shouldOrder fv stock leadTime z
            daily := dailyDemand fv
            totalForecast := fv.sum
            buffer := dynamicBuffer fv
            stockPosition := stock
            daysUntilOut := daysUntilStockout fv stock
            confidenceInterval := mean conf })

/-- Executable check that dates increase by exactly one between adjacent
rows (used only to decide `consecutiveDates` on concrete data). -/
def consecutiveDatesB : List SalesPoint → Bool
  | p :: q :: rest => (q.date == p.date + 1) && consecutiveDatesB (q :: rest)
  | _ => true

/-! ### Concrete instances used in counterexamples and witnesses -/

/-- A 13-day history with consecutive dates (shorter than the 14-point
minimum the specification requires for the full ensemble mode). -/
def c1series : List SalesPoint := (List.range 13).map (fun i => ⟨i, 10⟩)

/-- A 14-point history in which every observation falls on the same
weekday (one sale per week): positionally complete, calendar-gapped. -/
def mondaysSeries : List SalesPoint := (List.range 14).map (fun i => ⟨7 * i, 10⟩)

/-- A 15-day consecutive history: two weeks of 10 units followed by a
25-unit day. -/
def c2series : List SalesPoint :=
  [⟨0, 10⟩, ⟨1, 10⟩, ⟨2, 10⟩, ⟨3, 10⟩, ⟨4, 10⟩, ⟨5, 10⟩, ⟨6, 10⟩,
   ⟨7, 10⟩, ⟨8, 10⟩, ⟨9, 10⟩, ⟨10, 10⟩, ⟨11, 10⟩, ⟨12, 10⟩, ⟨13, 10⟩, ⟨14, 25⟩]

/-- A 14-day consecutive history of a constant 7 units per day. -/
def cwseries : List SalesPoint := (List.range 14).map (fun i => ⟨i, 7⟩)

/-- A 37-day consecutive history of a constant 10 units per day (long
enough for the walk-forward accuracy evaluator). -/
def s37 : List SalesPoint := (List.range 37).map (fun i => ⟨i, 10⟩)

/-- Default record used for positional access into detector output. -/
def defaultRec : AnomalyRecord :=
  { units := 0, rollMean := 0, rollStd := 0, isAnomaly := false, severity := 0 }

/-- The plan produced for a single-point forecast of 10 units, no stock,
a 7-day lead time and a 95% service level under the constant-`z` fallback. -/
noncomputable def c4plan : InventoryPlan :=
  { reorderPt := reorderPoint [10] 7 1.65
    orderQty := orderQuantity [10] 0 7 1.65
    safety := safetyStock [10] 7 1.65
    shouldOrd := shouldOrder [10] 0 7 1.65
    daily := dailyDemand [10]
    totalForecast := List.sum [10]
    buffer := dynamicBuffer [10]
    stockPosition := 0
    daysUntilOut := daysUntilStockout [10] 0
    confidenceInterval := mean [5] }

/-- The plan for an all-zero single-point forecast with zero stock and a
1-day lead time under the constant-`z` fallback: the reorder branch is
taken with a zero order quantity. -/
noncomputable def c5plan : InventoryPlan :=
  { reorderPt := reorderPoint [0] 1 1.65
    orderQty := orderQuantity [0] 0 1 1.65
    safety := safetyStock [0] 1 1.65
    shouldOrd := shouldOrder [0] 0 1 1.65
    daily := dailyDemand [0]
    totalForecast := List.sum [0]
    buffer := dynamicBuffer [0]
    stockPosition := 0
    daysUntilOut := daysUntilStockout [0] 0
    confidenceInterval := mean [5] }

/-- Stand-in for the real inverse normal at a service level below 0.5:
`norm.ppf` is negative on `(0, 0.5)` (for example `norm.ppf(0.3) ≈ -0.524`),
and any negative finite value exhibits the same sign behaviour. -/
noncomputable def negPpf : ℝ → Option ℝ := fun _ => some (-1)

/-- The plan for estimates `[0, 2]` (positive variance), zero stock, a
1-day lead time and the negative `z` reported by `negPpf`. -/
noncomputable def c5negplan : InventoryPlan :=
  { reorderPt := reorderPoint [0, 2] 1 (-1)
    orderQty := orderQuantity [0, 2] 0 1 (-1)
    safety := safetyStock [0, 2] 1 (-1)
    shouldOrd := shouldOrder [0, 2] 0 1 (-1)
    daily := dailyDemand [0, 2]
    totalForecast := List.sum [0, 2]
    buffer := dynamicBuffer [0, 2]
    stockPosition := 0
    daysUntilOut := daysUntilStockout [0, 2] 0
    confidenceInterval := mean [5] }

/-! ### Helper lemmas -/

theorem seqOpt_eq_none_iff {α : Type} {l : List (Option α)} :
    seqOpt l = none ↔ none ∈ l := by
  induction l with
  | nil => simp [seqOpt]
  | cons a rest ih =>
      cases a with
      | none => simp [seqOpt]
      | some b =>
          simp only [seqOpt, List.mem_cons]
          constructor
          · intro hn
            rcases hrest : seqOpt rest with _ | v
            · exact Or.inr (ih.mp hrest)
            · rw [hrest] at hn; simp [Option.map] at hn
          · rintro (h | h)
            · exact absurd h (by simp)
            · rw [ih.mpr h]; rfl

theorem seqOpt_length {α : Type} {l : List (Option α)} {v : List α}
    (h : seqOpt l = some v) : v.length = l.length := by
  induction l generalizing v with
  | nil => rw [seqOpt] at h; cases h; rfl
  | cons a rest ih =>
      cases a with
      | none => simp [seqOpt] at h
      | some b =>
          simp only [seqOpt] at h
          rcases hrest : seqOpt rest with _ | v2
          · rw [hrest] at h; simp at h
          · rw [hrest] at h
            simp only [Option.map_some', Option.some.injEq] at h
            subst h
            simp [ih hrest]

theorem seqOpt_getD {α : Type} [Inhabited α] {l : List (Option α)} {v : List α}
    (h : seqOpt l = some v) :
    ∀ i, i < l.length → l.getD i none = some (v.getD i default) := by
  induction l generalizing v with
  | nil => intro i hi; exact absurd hi (by simp)
  | cons a rest ih =>
      cases a with
      | none => simp [seqOpt] at h
      | some b =>
          simp only [seqOpt] at h
          rcases hrest : seqOpt rest with _ | v2
          · rw [hrest] at h; simp at h
          · rw [hrest] at h
            simp only [Option.map_some', Option.some.injEq] at h
            subst h
            intro i hi
            cases i with
            | zero => rfl
            | succ j =>
                simp only [List.getD_cons_succ]
                exact ih hrest j (by simpa using hi)

theorem seqOpt_mem {α : Type} {l : List (Option α)} {v : List α}
    (h : seqOpt l = some v) {x : α} (hx : x ∈ v) : some x ∈ l := by
  induction l generalizing v with
  | nil => rw [seqOpt] at h; cases h; exact absurd hx (by simp)
  | cons a rest ih =>
      cases a with
      | none => simp [seqOpt] at h
      | some b =>
          simp only [seqOpt] at h
          rcases hrest : seqOpt rest with _ | v2
          · rw [hrest] at h; simp at h
          · rw [hrest] at h
            simp only [Option.map_some', Option.some.injEq] at h
            subst h
            rcases List.mem_cons.mp hx with h1 | h1
            · subst h1; exact List.mem_cons_self _ _
            · exact List.mem_cons_of_mem _ (ih hrest h1)

/-- The squared-form encoding of the rolling-bound comparison:
for `c, v ≥ 0`, exceeding `m + c * sqrt v` is the same as lying above `m`
with squared distance above `c² * v`. -/
theorem gt_add_mul_sqrt_iff (q m v c : ℚ) (hv : 0 ≤ v) (hc : 0 ≤ c) :
    ((q : ℝ) > (m : ℝ) + (c : ℝ) * Real.sqrt (v : ℝ)) ↔
      (q > m ∧ (q - m) ^ 2 > c ^ 2 * v) := by
  have hb : (0 : ℝ) ≤ (c : ℝ) * Real.sqrt (v : ℝ) :=
    mul_nonneg (by exact_mod_cast hc) (Real.sqrt_nonneg _)
  have hbsq : ((c : ℝ) * Real.sqrt (v : ℝ)) ^ 2 = (c : ℝ) ^ 2 * (v : ℝ) := by
    rw [mul_pow, Real.sq_sqrt (by exact_mod_cast hv)]
  have hcast : ((q : ℝ) - (m : ℝ)) ^ 2 > (c : ℝ) ^ 2 * (v : ℝ) ↔
      (q - m) ^ 2 > c ^ 2 * v := by
    constructor
    · intro hsq; exact_mod_cast (by push_cast; linarith : ((q - m : ℚ) : ℝ) ^ 2 > ((c ^ 2 * v : ℚ) : ℝ))
    · intro hsq
      have : ((q - m : ℚ) : ℝ) ^ 2 > ((c ^ 2 * v : ℚ) : ℝ) := by exact_mod_cast hsq
      push_cast at this; linarith
  constructor
  · intro hlt
    have ha : (0 : ℝ) < (q : ℝ) - (m : ℝ) := by linarith
    have hsq : ((q : ℝ) - (m : ℝ)) ^ 2 > ((c : ℝ) * Real.sqrt (v : ℝ)) ^ 2 := by
      nlinarith
    rw [hbsq] at hsq
    exact ⟨by exact_mod_cast (by linarith : (m : ℝ) < (q : ℝ)), hcast.mp hsq⟩
  · rintro ⟨h1, h2⟩
    have ha : (0 : ℝ) < (q : ℝ) - (m : ℝ) := by
      have : (m : ℝ) < (q : ℝ) := by exact_mod_cast h1
      linarith
    have h2r := hcast.mpr h2
    nlinarith [Real.sqrt_nonneg (v : ℝ), hbsq]

theorem mean_nonneg {l : List ℚ} (h : ∀ x ∈ l, 0 ≤ x) : 0 ≤ mean l := by
  unfold mean
  apply div_nonneg
  · exact List.sum_nonneg h
  · positivity

theorem sampleVar_nonneg (l : List ℚ) : 0 ≤ sampleVar l := by
  unfold sampleVar
  split
  · exact le_refl 0
  · rename_i hlen
    apply div_nonneg
    · apply List.sum_nonneg
      intro x hx
      rcases List.mem_map.mp hx with ⟨y, _, rfl⟩
      positivity
    · have : 2 ≤ l.length := by omega
      have : (2 : ℚ) ≤ (l.length : ℚ) := by exact_mod_cast this
      linarith

theorem popVar_nonneg (l : List ℚ) : 0 ≤ popVar l := by
  unfold popVar
  apply div_nonneg
  · apply List.sum_nonneg
    intro x hx
    rcases List.mem_map.mp hx with ⟨y, _, rfl⟩
    positivity
  · positivity

/-- Dates increase by exactly one between adjacent rows: the well-formed
("no missing dates") series shape of the specification. -/
def consecutiveDates (s : List SalesPoint) : Prop :=
  s.Chain' (fun p q => q.date = p.date + 1)

theorem consecutiveDatesB_iff (s : List SalesPoint) :
    consecutiveDatesB s = true ↔ consecutiveDates s := by
  induction s with
  | nil => simp [consecutiveDatesB, consecutiveDates]
  | cons p rest ih =>
      cases rest with
      | nil => simp [consecutiveDatesB, consecutiveDates]
      | cons q rest2 =>
          rw [consecutiveDates, List.chain'_cons]
          rw [consecutiveDates] at ih
          simp [consecutiveDatesB, ih]

instance (s : List SalesPoint) : Decidable (consecutiveDates s) :=
  decidable_of_iff _ (consecutiveDatesB_iff s)

theorem date_of_consecutive {s : List SalesPoint} (hc : consecutiveDates s)
    (hpos : 0 < s.length) (i : ℕ) (hi : i < s.length) :
    (s.get ⟨i, hi⟩).date = (s.get ⟨0, hpos⟩).date + i := by
  induction i with
  | zero => rfl
  | succ j ihj =>
      have hj : j < s.length := Nat.lt_of_succ_lt hi
      have hstep := (List.chain'_iff_get.mp hc) j (by omega)
      rw [hstep, ihj hj]
      omega

theorem weekday_present_of_consecutive {s : List SalesPoint}
    (hc : consecutiveDates s) (h7 : 7 ≤ s.length) (w : ℕ) (hw : w < 7) :
    weekdayPresent s w := by
  have hpos : 0 < s.length := by omega
  set d0 := (s.get ⟨0, hpos⟩).date with hd0
  set j := (w + 7 - d0 % 7) % 7 with hj
  have hj7 : j < 7 := Nat.mod_lt _ (by omega)
  have hjlen : j < s.length := lt_of_lt_of_le hj7 h7
  have hdate : (s.get ⟨j, hjlen⟩).date = d0 + j := by
    have := date_of_consecutive hc hpos j hjlen
    simpa using this
  have hmod : (d0 + j) % 7 = w := by
    have hd7 : d0 % 7 < 7 := Nat.mod_lt _ (by omega)
    omega
  unfold weekdayPresent weekdayGroup seriesUnits
  intro hempty
  rw [List.map_eq_nil_iff] at hempty
  have hmem : s.get ⟨j, hjlen⟩ ∈ s.filter (fun p => p.date % 7 == w) := by
    rw [List.mem_filter]
    refine ⟨List.get_mem s j hjlen, ?_⟩
    simp only [List.get_eq_getElem] at hdate
    simp [hdate, hmod]
  rw [hempty] at hmem
  simp at hmem

theorem forecastAt_eq_none_iff (s : List SalesPoint) (i : ℕ) :
    forecastAt s i = none ↔ ¬ weekdayPresent s ((lastDate s + i + 1) % 7) := by
  unfold forecastAt weekdayPresent seasonalFactor
  simp only [Option.map_eq_none']
  split <;> simp_all

theorem sum_of_const {l : List ℚ} {c : ℚ} (h : ∀ x ∈ l, x = c) :
    l.sum = c * l.length := by
  induction l with
  | nil => simp
  | cons a rest ih =>
      have ha : a = c := h a (List.mem_cons_self a rest)
      have hrest : ∀ x ∈ rest, x = c := fun x hx => h x (List.mem_cons_of_mem _ hx)
      simp [ha, ih hrest]
      ring

theorem mean_of_const {l : List ℚ} {c : ℚ} (h : ∀ x ∈ l, x = c) (hne : l ≠ []) :
    mean l = c := by
  have hlen : (l.length : ℚ) ≠ 0 := by
    simp [List.length_eq_zero]
    intro h0
    exact hne h0
  unfold mean
  rw [sum_of_const h]
  field_simp

theorem lastN_subset (n : ℕ) (l : List α) : ∀ x ∈ lastN n l, x ∈ l := by
  intro x hx
  exact List.drop_subset _ _ hx

theorem lastN_ne_nil {n : ℕ} {l : List α} (hn : 0 < n) (hl : l ≠ []) :
    lastN n l ≠ [] := by
  have hlen : 0 < l.length := List.length_pos.mpr hl
  intro hcon
  have := congrArg List.length hcon
  rw [lastN, List.length_drop] at this
  simp at this
  omega

theorem seriesUnits_const {s : List SalesPoint} {c : ℚ}
    (h : ∀ p ∈ s, p.units = c) : ∀ x ∈ seriesUnits s, x = c := by
  intro x hx
  rcases List.mem_map.mp hx with ⟨p, hp, rfl⟩
  exact h p hp

theorem seriesUnits_ne_nil {s : List SalesPoint} (hs : s ≠ []) :
    seriesUnits s ≠ [] := by
  unfold seriesUnits
  simpa [List.map_eq_nil_iff] using hs

theorem recentAvg_const {s : List SalesPoint} {c : ℚ}
    (h : ∀ p ∈ s, p.units = c) (hs : s ≠ []) : recentAvg s = c := by
  unfold recentAvg
  apply mean_of_const
  · intro x hx
    exact seriesUnits_const h x (lastN_subset _ _ x hx)
  · exact lastN_ne_nil (by norm_num) (seriesUnits_ne_nil hs)

theorem recentTrend_const {s : List SalesPoint} {c : ℚ}
    (h : ∀ p ∈ s, p.units = c) (hs : s ≠ []) : recentTrend s = 0 := by
  unfold recentTrend
  have hne : lastN 14 (seriesUnits s) ≠ [] :=
    lastN_ne_nil (by norm_num) (seriesUnits_ne_nil hs)
  have hmem : ∀ x ∈ lastN 14 (seriesUnits s), x = c := fun x hx =>
    seriesUnits_const h x (lastN_subset _ _ x hx)
  rcases hl : lastN 14 (seriesUnits s) with _ | ⟨a, rest⟩
  · exact absurd hl hne
  · have hhead : a = c := hmem a (by rw [hl]; exact List.mem_cons_self a rest)
    have hg2 : (a :: rest).getLast?.getD 0 = c := by
      rw [List.getLast?_eq_getLast (a :: rest) (by simp)]
      exact hmem _ (by rw [hl]; exact List.getLast_mem (by simp))
    rw [hhead] at hg2
    simp [hg2, hhead]

theorem sum_zip_centered_zero (xb yb : ℚ) (xs ys : List ℚ)
    (h : ∀ y ∈ ys, y = yb) :
    (List.zipWith (fun x y => (x - xb) * (y - yb)) xs ys).sum = 0 := by
  induction xs generalizing ys with
  | nil => simp
  | cons x xs ih =>
      cases ys with
      | nil => simp
      | cons y ys =>
          have hy : y = yb := h y (List.mem_cons_self y ys)
          have hys : ∀ z ∈ ys, z = yb := fun z hz => h z (List.mem_cons_of_mem _ hz)
          simp [hy, ih ys hys]

theorem olsSlope_const {s : List SalesPoint} {c : ℚ}
    (h : ∀ p ∈ s, p.units = c) : olsSlope s = 0 := by
  unfold olsSlope
  rcases List.eq_nil_or_concat s with hs | _
  · subst hs; simp [olsXs, seriesUnits]
  · have hne : s ≠ [] := by
      rename_i hcat
      rcases hcat with ⟨l2, b, rfl⟩
      simp
    have hmean : mean (seriesUnits s) = c :=
      mean_of_const (seriesUnits_const h) (seriesUnits_ne_nil hne)
    rw [hmean, sum_zip_centered_zero _ c _ _ (seriesUnits_const h)]
    simp

theorem linPredict_const {s : List SalesPoint} {c : ℚ}
    (h : ∀ p ∈ s, p.units = c) (hs : s ≠ []) (t : ℚ) : linPredict s t = c := by
  unfold linPredict olsIntercept
  rw [olsSlope_const h, mean_of_const (seriesUnits_const h) (seriesUnits_ne_nil hs)]
  ring

theorem weekdayGroup_const {s : List SalesPoint} {c : ℚ}
    (h : ∀ p ∈ s, p.units = c) (w : ℕ) : ∀ x ∈ weekdayGroup s w, x = c := by
  intro x hx
  unfold weekdayGroup seriesUnits at hx
  rcases List.mem_map.mp hx with ⟨p, hp, rfl⟩
  exact h p (List.mem_filter.mp hp).1

theorem weekdayGroup_ne_nil_of_present {s : List SalesPoint} {w : ℕ}
    (hp : weekdayPresent s w) : weekdayGroup s w ≠ [] := hp

theorem head_weekday_present {s : List SalesPoint} (hs : s ≠ []) :
    ∃ w, w < 7 ∧ weekdayPresent s w := by
  rcases s with _ | ⟨p, rest⟩
  · exact absurd rfl hs
  · refine ⟨p.date % 7, Nat.mod_lt _ (by norm_num), ?_⟩
    unfold weekdayPresent weekdayGroup seriesUnits
    simp only [ne_eq, List.map_eq_nil_iff]
    intro hcon
    have : p ∈ List.filter (fun q => q.date % 7 == p.date % 7) (p :: rest) := by
      simp [List.mem_filter]
    rw [hcon] at this
    simp at this

theorem patternMeanOfMeans_const {s : List SalesPoint} {c : ℚ}
    (h : ∀ p ∈ s, p.units = c) (hs : s ≠ []) : patternMeanOfMeans s = c := by
  unfold patternMeanOfMeans
  apply mean_of_const
  · intro x hx
    rcases List.mem_map.mp hx with ⟨w, hw, rfl⟩
    have hne : weekdayGroup s w ≠ [] := by
      have := (List.mem_filter.mp hw).2
      simpa [List.isEmpty_iff] using this
    exact mean_of_const (weekdayGroup_const h w) hne
  · rcases head_weekday_present hs with ⟨w, hw7, hwp⟩
    simp only [ne_eq, List.map_eq_nil_iff]
    intro hcon
    have : w ∈ presentWeekdays s := by
      unfold presentWeekdays
      rw [List.mem_filter]
      refine ⟨List.mem_range.mpr hw7, ?_⟩
      simpa [List.isEmpty_iff] using hwp
    rw [hcon] at this
    simp at this

theorem seasonalFactor_const {s : List SalesPoint} {c : ℚ} {w : ℕ}
    (h : ∀ p ∈ s, p.units = c) (hs : s ≠ []) (hc : c ≠ 0)
    (hp : weekdayPresent s w) : seasonalFactor s w = some 1 := by
  unfold seasonalFactor
  rw [if_neg hp]
  have hne : weekdayGroup s w ≠ [] := hp
  rw [mean_of_const (weekdayGroup_const h w) hne, patternMeanOfMeans_const h hs]
  simp [div_self hc]

theorem forecastAt_const {s : List SalesPoint} {c : ℚ}
    (h : ∀ p ∈ s, p.units = c) (hs : s ≠ []) (hc : 0 < c)
    (hall : ∀ w, w < 7 → weekdayPresent s w) (i : ℕ) :
    forecastAt s i = some c := by
  unfold forecastAt
  rw [seasonalFactor_const h hs (ne_of_gt hc)
    (hall _ (Nat.mod_lt _ (by norm_num)))]
  simp only [Option.map_some', Option.some.injEq]
  rw [linPredict_const h hs, recentAvg_const h hs, recentTrend_const h hs]
  have hsum : 3/10 * c + 4/10 * (c + 0 * (i : ℚ)) + 3/10 * (c * 1) = c := by ring
  rw [hsum, max_eq_right (le_of_lt hc)]

theorem seqOpt_replicate {α : Type} (n : ℕ) (c : α) :
    seqOpt (List.replicate n (some c)) = some (List.replicate n c) := by
  induction n with
  | zero => rfl
  | succ m ih => simp [List.replicate_succ, seqOpt, ih]

theorem ensembleForecastValues_const {s : List SalesPoint} {c : ℚ}
    (h : ∀ p ∈ s, p.units = c) (hs : s ≠ []) (hc : 0 < c)
    (hall : ∀ w, w < 7 → weekdayPresent s w) (hz : ℕ) :
    ensembleForecastValues s hz = some (List.replicate hz c) := by
  unfold ensembleForecastValues
  have hrep : (List.range hz).map (forecastAt s) = List.replicate hz (some c) := by
    refine List.eq_replicate_iff.mpr ⟨by simp, ?_⟩
    intro x hx
    rcases List.mem_map.mp hx with ⟨i, _, rfl⟩
    exact forecastAt_const h hs hc hall i
  rw [hrep, seqOpt_replicate]

theorem ensembleForecastValues_eq_none_iff (s : List SalesPoint) (h : ℕ) :
    ensembleForecastValues s h = none ↔
      ∃ i < h, ¬ weekdayPresent s ((lastDate s + i + 1) % 7) := by
  unfold ensembleForecastValues
  rw [seqOpt_eq_none_iff]
  constructor
  · intro hmem
    rcases List.mem_map.mp hmem with ⟨i, hi, hfi⟩
    exact ⟨i, List.mem_range.mp hi, (forecastAt_eq_none_iff s i).mp hfi⟩
  · rintro ⟨i, hi, habs⟩
    exact List.mem_map.mpr ⟨i, List.mem_range.mpr hi,
      (forecastAt_eq_none_iff s i).mpr habs⟩

theorem ensembleForecastValues_ne_none {s : List SalesPoint} (h : ℕ)
    (hall : ∀ w, w < 7 → weekdayPresent s w) :
    ensembleForecastValues s h ≠ none := by
  intro hnone
  rw [ensembleForecastValues_eq_none_iff] at hnone
  rcases hnone with ⟨i, _, habs⟩
  exact habs (hall _ (Nat.mod_lt _ (by norm_num)))

theorem forecastAt_nonneg {s : List SalesPoint} {i : ℕ} {x : ℚ}
    (h : forecastAt s i = some x) : 0 ≤ x := by
  unfold forecastAt at h
  rcases hsf : seasonalFactor s ((lastDate s + i + 1) % 7) with _ | sf
  · rw [hsf] at h; simp at h
  · rw [hsf] at h
    simp only [Option.map_some', Option.some.injEq] at h
    rw [← h]
    exact le_max_left _ _

/-- The mirrored squared-form encoding for the lower rolling bound. -/
theorem lt_sub_mul_sqrt_iff (q m v c : ℚ) (hv : 0 ≤ v) (hc : 0 ≤ c) :
    ((q : ℝ) < (m : ℝ) - (c : ℝ) * Real.sqrt (v : ℝ)) ↔
      (q < m ∧ (m - q) ^ 2 > c ^ 2 * v) := by
  have hmain := gt_add_mul_sqrt_iff (-q) (-m) v c hv hc
  push_cast at hmain
  constructor
  · intro hlt
    have := hmain.mp (by linarith)
    exact ⟨by linarith [this.1], by have := this.2; nlinarith [this]⟩
  · rintro ⟨h1, h2⟩
    have := hmain.mpr ⟨by linarith, by nlinarith⟩
    linarith

theorem windowAt_zero {l : List ℚ} (hne : l ≠ []) (w : ℕ) (hw : 0 < w) :
    windowAt l w 0 = [l.getD 0 0] := by
  rcases l with _ | ⟨a, rest⟩
  · exact absurd rfl hne
  · have ht : (a :: rest).take 1 = [a] := rfl
    unfold windowAt
    rw [ht]
    unfold lastN
    have hlen : ([a] : List ℚ).length - w = 0 := by simp; omega
    rw [hlen]
    rfl

/-! ## Claim theorems -/

/-- C1 (amended): `ensemble_forecast` performs no minimum-length
validation and there is no `InsufficientHistory` error anywhere in the
code: any history with consecutive dates and at least 7 points — in
particular one shorter than the 14 points the specification demands —
is forecast without any failure. -/
theorem ensemble_no_insufficient_history (s : List SalesPoint) (h : ℕ)
    (hc : consecutiveDates s) (hlen : 7 ≤ s.length) :
    ensembleForecastValues s h ≠ none :=
  ensembleForecastValues_ne_none h (fun w hw =>
    weekday_present_of_consecutive hc hlen w hw)

/-- C1 witness: the 13-point consecutive-date series is accepted. -/
theorem ensemble_no_insufficient_history_witness :
    ensembleForecastValues c1series 14 ≠ none :=
  ensemble_no_insufficient_history c1series 14 (by decide) (by decide)

/-- C1 counterexample: a 13-point series (shorter than the required 14)
for which the forecast succeeds instead of failing with
`InsufficientHistory`. -/
theorem ensemble_short_series_counterexample :
    c1series.length = 13 ∧ ensembleForecastValues c1series 14 ≠ none :=
  ⟨by decide, ensembleForecastValues_ne_none 14 (by decide)⟩

/-- C7 (amended): the forecast's only runtime failure is the seasonal
lookup, and it fails exactly when the weekday of some forecast date never
occurs in the history.  A well-formed gap-free series never triggers it,
but the positional day index does not protect calendar-gapped input:
an absent weekday among the forecast dates does cause a failure. -/
theorem ensemble_failure_characterization (s : List SalesPoint) (h : ℕ) :
    ensembleForecastValues s h = none ↔
      ∃ i < h, ¬ weekdayPresent s ((lastDate s + i + 1) % 7) :=
  ensembleForecastValues_eq_none_iff s h

/-- C7 counterexample: 14 points all on the same weekday — forecasting
the very next day fails (the `KeyError` of the `seasonal[...]` lookup),
so a well-formed-but-gapped series of ≥ 14 points does not complete. -/
theorem ensemble_missing_weekday_counterexample :
    ensembleForecastValues mondaysSeries 1 = none := by
  rw [ensembleForecastValues_eq_none_iff]
  exact ⟨0, by norm_num, by decide⟩

/-- C8: for every well-formed series (consecutive dates) of at least 14
points and horizon ≥ 1, the forecast returns exactly `h` points, each
point estimate is ≥ 0, and every confidence half-width equals
`1.96 * stdev(last 30 observed quantities)` — one constant for the whole
horizon. -/
theorem forecast_shape (s : List SalesPoint) (h : ℕ)
    (hc : consecutiveDates s) (hlen : 14 ≤ s.length) (hh : 1 ≤ h) :
    ∃ v, ensembleForecastValues s h = some v ∧ v.length = h ∧
      (∀ x ∈ v, 0 ≤ x) ∧ (forecastConfidences s h).length = h ∧
      ∀ cc ∈ forecastConfidences s h,
        cc = 1.96 * Real.sqrt (sampleVar (lastN 30 (seriesUnits s))) := by
  have hall : ∀ w, w < 7 → weekdayPresent s w := fun w hw =>
    weekday_present_of_consecutive hc (by omega) w hw
  have hne := ensembleForecastValues_ne_none (s := s) h hall
  rcases Option.ne_none_iff_exists'.mp hne with ⟨v, hv⟩
  refine ⟨v, hv, ?_, ?_, ?_, ?_⟩
  · have hl := seqOpt_length (l := (List.range h).map (forecastAt s)) hv
    simpa using hl
  · intro x hx
    have hmem := seqOpt_mem (l := (List.range h).map (forecastAt s)) hv hx
    rcases List.mem_map.mp hmem with ⟨i, _, hfi⟩
    exact forecastAt_nonneg hfi
  · simp [forecastConfidences]
  · intro cc hcc
    rcases List.mem_map.mp hcc with ⟨i, _, rfl⟩
    rfl

/-- C8 witness: a 14-day constant series, horizon 3. -/
theorem forecast_shape_witness :
    ∃ v, ensembleForecastValues cwseries 3 = some v ∧ v.length = 3 ∧
      (∀ x ∈ v, 0 ≤ x) ∧ (forecastConfidences cwseries 3).length = 3 ∧
      ∀ cc ∈ forecastConfidences cwseries 3,
        cc = 1.96 * Real.sqrt (sampleVar (lastN 30 (seriesUnits cwseries))) :=
  forecast_shape cwseries 3 (by decide) (by decide) (by norm_num)

/-- C2 (amended): the point estimate at 0-based offset `i` equals
`max(0, 0.3*linear + 0.4*level + 0.3*seasonal)` where `linear` is the OLS
prediction at positional index `len(series) + i`, `level` uses the plain
mean of the last 14 raw quantities as the recent average (the EWMA series
is computed but unused) with trend `(last raw − raw 13 positions earlier)/14`
and multiplier `i` (one less than the 1-based future offset), and
`seasonal` multiplies that recent average by the weekday factor normalized
by the mean of the per-weekday means (not by the overall series mean). -/
theorem ensemble_point_formula (s : List SalesPoint) (h i : ℕ) (v : List ℚ)
    (sf : ℚ) (hlen : 14 ≤ s.length)
    (hv : ensembleForecastValues s h = some v) (hi : i < h)
    (hsf : seasonalFactor s ((lastDate s + i + 1) % 7) = some sf) :
    v.getD i 0 = max 0 (3/10 * linPredict s ((s.length : ℚ) + (i : ℚ)) +
      4/10 * (recentAvg s + recentTrend s * (i : ℚ)) +
      3/10 * (recentAvg s * sf)) := by
  have hgd := seqOpt_getD (l := (List.range h).map (forecastAt s)) hv i
    (by simpa using hi)
  rw [List.getD_eq_getElem?_getD, List.getElem?_map, List.getElem?_range hi] at hgd
  simp only [Option.map_some', Option.getD_some] at hgd
  unfold forecastAt at hgd
  rw [hsf] at hgd
  simp only [Option.map_some', Option.some.injEq] at hgd
  exact hgd.symm

/-- C2 witness: constant 14-day series, first forecast day. -/
theorem ensemble_point_formula_witness :
    ([(7 : ℚ)].getD 0 0) =
      max 0 (3/10 * linPredict cwseries ((cwseries.length : ℚ) + ((0 : ℕ) : ℚ)) +
        4/10 * (recentAvg cwseries + recentTrend cwseries * ((0 : ℕ) : ℚ)) +
        3/10 * (recentAvg cwseries * 1)) := by
  have hconst : ∀ p ∈ cwseries, p.units = 7 := by
    intro p hp
    simp [cwseries] at hp
    rcases hp with ⟨i, _, rfl⟩
    rfl
  have hv : ensembleForecastValues cwseries 1 = some [7] := by
    rw [ensembleForecastValues_const hconst (by decide) (by norm_num) (by decide)]
    rfl
  have hsf : seasonalFactor cwseries ((lastDate cwseries + 0 + 1) % 7) = some 1 :=
    seasonalFactor_const hconst (by decide) (by norm_num) (by decide)
  exact ensemble_point_formula cwseries 1 0 [7] 1 (by decide) hv (by norm_num) hsf

/-- C9: the accuracy evaluator returns `None` (no error) below 30 points;
otherwise it reports `mae = mean |actual - predicted|` over the 7 held-out
points and the MAPE is absent exactly when some held-out actual value is 0
(quantities being non-negative), else equals
`mean(|actual - predicted| / actual) * 100`. -/
theorem accuracy_contract (s : List SalesPoint) (v : List ℚ)
    (hnn : ∀ q ∈ seriesUnits s, 0 ≤ q) :
    (s.length < 30 → calculateAccuracy s = some none) ∧
    (30 ≤ s.length →
      ensembleForecastValues (s.take (s.length - 7)) 7 = some v →
      calculateAccuracy s =
          some (some (calcMae (seriesUnits (lastN 7 s)) v,
                      calcMape (seriesUnits (lastN 7 s)) v)) ∧
        calcMae (seriesUnits (lastN 7 s)) v =
          mean (List.zipWith (fun a p => |a - p|) (seriesUnits (lastN 7 s)) v) ∧
        (calcMape (seriesUnits (lastN 7 s)) v = none ↔
          (0 : ℚ) ∈ seriesUnits (lastN 7 s)) ∧
        (∀ m, calcMape (seriesUnits (lastN 7 s)) v = some m →
          m = mean (List.zipWith (fun a p => |(a - p) / a|)
                (seriesUnits (lastN 7 s)) v) * 100)) := by
  have hsub : ∀ a ∈ seriesUnits (lastN 7 s), 0 ≤ a := by
    intro a ha
    rcases List.mem_map.mp ha with ⟨p, hp, rfl⟩
    exact hnn _ (List.mem_map_of_mem _ (List.drop_subset _ _ hp))
  constructor
  · intro hlt
    unfold calculateAccuracy
    rw [if_pos hlt]
  · intro h30 hv
    refine ⟨?_, rfl, ?_, ?_⟩
    · simp only [calculateAccuracy]
      rw [if_neg (by omega), if_neg (by simp [List.length_take]; omega), hv]
    · unfold calcMape
      constructor
      · intro hnone
        have hcond : ¬ (seriesUnits (lastN 7 s)).all (fun a => decide (0 < a)) = true := by
          intro hall
          rw [if_pos hall] at hnone
          exact absurd hnone (by simp)
        simp only [List.all_eq_true, decide_eq_true_eq] at hcond
        push_neg at hcond
        rcases hcond with ⟨a, ha, hna⟩
        have h0 : a = 0 := le_antisymm hna (hsub a ha)
        rw [← h0]
        exact ha
      · intro h0
        rw [if_neg]
        simp only [List.all_eq_true, decide_eq_true_eq]
        intro hall
        exact absurd (hall 0 h0) (by norm_num)
    · intro m hm
      unfold calcMape at hm
      by_cases hall : (seriesUnits (lastN 7 s)).all (fun a => decide (0 < a))
      · rw [if_pos hall] at hm
        simpa using hm.symm
      · rw [if_neg hall] at hm
        exact absurd hm (by simp)

/-- C9 witness: a 37-day constant history. -/
theorem accuracy_contract_witness :
    calculateAccuracy s37 =
        some (some (calcMae (seriesUnits (lastN 7 s37)) (List.replicate 7 10),
                    calcMape (seriesUnits (lastN 7 s37)) (List.replicate 7 10))) ∧
      calcMae (seriesUnits (lastN 7 s37)) (List.replicate 7 10) =
        mean (List.zipWith (fun a p => |a - p|) (seriesUnits (lastN 7 s37))
          (List.replicate 7 10)) ∧
      (calcMape (seriesUnits (lastN 7 s37)) (List.replicate 7 10) = none ↔
        (0 : ℚ) ∈ seriesUnits (lastN 7 s37)) ∧
      (∀ m, calcMape (seriesUnits (lastN 7 s37)) (List.replicate 7 10) = some m →
        m = mean (List.zipWith (fun a p => |(a - p) / a|)
              (seriesUnits (lastN 7 s37)) (List.replicate 7 10)) * 100) := by
  have hnn : ∀ q ∈ seriesUnits s37, 0 ≤ q := by
    intro q hq
    simp [s37, seriesUnits] at hq
    rcases hq with ⟨i, _, rfl⟩
    norm_num
  have hconst : ∀ p ∈ s37.take (s37.length - 7), p.units = 10 := by
    intro p hp
    have hp2 : p ∈ s37 := List.take_subset _ _ hp
    simp [s37] at hp2
    rcases hp2 with ⟨i, _, rfl⟩
    rfl
  have hv : ensembleForecastValues (s37.take (s37.length - 7)) 7 =
      some (List.replicate 7 10) :=
    ensembleForecastValues_const hconst (by decide) (by norm_num) (by decide) 7
  exact (accuracy_contract s37 (List.replicate 7 10) hnn).2 (by decide) hv

/-- C3 (amended): `calculate_optimal_inventory` performs no parameter
validation and `InvalidParameter` does not exist, so no validation error
is ever raised; `lead_time_days = 0` in particular is accepted and
returns a plan.  The failures that do occur are incidental arithmetic
errors: an empty `point_estimates` list raises `ZeroDivisionError`, and
a `NaN`/`±inf` intermediate — a negative lead time (`np.sqrt` → `NaN`)
or an out-of-range service level under the real inverse normal — raises
`ValueError`/`OverflowError` at the terminal `round()`.  The call
returns a plan exactly when the list is non-empty, the `z`-score is
finite, and the lead time is non-negative. -/
theorem inventory_no_validation (fv conf : List ℚ)
    (stock leadTime serviceLevel : ℝ) (ppf : Option (ℝ → Option ℝ)) :
    (calculateOptimalInventory fv conf stock leadTime serviceLevel ppf).isSome
      = true ↔
      (fv ≠ [] ∧ (zScore ppf serviceLevel).isSome = true ∧ 0 ≤ leadTime) := by
  unfold calculateOptimalInventory
  by_cases hfv : fv.length = 0
  · rw [if_pos hfv]
    simp [List.length_eq_zero.mp hfv]
  · rw [if_neg hfv]
    have hne : fv ≠ [] := by
      intro hcon
      exact hfv (by rw [hcon]; rfl)
    rcases hz : zScore ppf serviceLevel with _ | z
    · simp
    · rw [Option.some_bind]
      by_cases hlt : leadTime < 0
      · rw [if_pos hlt]
        simp [hne, not_le.mpr hlt]
      · rw [if_neg hlt]
        simp [hne, not_lt.mp hlt]

/-- C3 counterexample: `lead_time_days = 0` violates the claimed
precondition `lead_time_days > 0`, yet the call returns a plan instead of
failing with `InvalidParameter`. -/
theorem inventory_no_validation_counterexample :
    (calculateOptimalInventory [10] [5] 100 0 (19/20) none).isSome = true := by
  unfold calculateOptimalInventory zScore
  norm_num

/-- C4: the returned plan satisfies
`reorder_point = lead_time_demand + safety_stock` exactly,
`safety_stock = z * forecast_std * sqrt(lead_time)` with `z` the injected
inverse-normal value (the constant 1.65 when the facility is absent), and
`order_quantity = (reorder_point - stock) + daily_demand * 7` when
`stock <= reorder_point`, else 0. -/
theorem inventory_plan_formulas (fv conf : List ℚ)
    (stock leadTime serviceLevel : ℝ) (ppf : Option (ℝ → Option ℝ))
    (plan : InventoryPlan) (z : ℝ)
    (hlt : 0 < leadTime) (hsl0 : 0 < serviceLevel) (hsl1 : serviceLevel < 1)
    (hz : zScore ppf serviceLevel = some z)
    (hp : calculateOptimalInventory fv conf stock leadTime serviceLevel ppf
      = some plan) :
    plan.reorderPt = leadTimeDemand fv leadTime + safetyStock fv leadTime z ∧
      plan.safety = z * (forecastStd fv * Real.sqrt leadTime) ∧
      plan.orderQty = (if stock ≤ plan.reorderPt
        then (plan.reorderPt - stock) + (dailyDemand fv : ℝ) * 7 else 0) := by
  unfold calculateOptimalInventory at hp
  by_cases hfv : fv.length = 0
  · rw [if_pos hfv] at hp
    exact absurd hp (by simp)
  · rw [if_neg hfv, hz, Option.some_bind] at hp
    by_cases hltn : leadTime < 0
    · rw [if_pos hltn] at hp
      exact absurd hp (by simp)
    · rw [if_neg hltn] at hp
      have heq := Option.some.inj hp
      subst heq
      exact ⟨rfl, rfl, rfl⟩

/-- C4 witness. -/
theorem inventory_plan_formulas_witness :
    c4plan.reorderPt = leadTimeDemand [10] 7 + safetyStock [10] 7 1.65 ∧
      c4plan.safety = 1.65 * (forecastStd [10] * Real.sqrt 7) ∧
      c4plan.orderQty = (if (0 : ℝ) ≤ c4plan.reorderPt
        then (c4plan.reorderPt - 0) + (dailyDemand [10] : ℝ) * 7 else 0) :=
  inventory_plan_formulas [10] [5] 0 7 (19/20) none c4plan 1.65
    (by norm_num) (by norm_num) (by norm_num) rfl
    (by unfold calculateOptimalInventory zScore; norm_num [c4plan])

/-- C5 (amended): for valid parameters and non-negative point estimates
the plan satisfies `order_quantity >= 0`, `order_quantity > 0` implies
`should_order`, and `should_order` holds exactly when
`stock <= reorder_point`; `safety_stock >= 0` holds whenever the
`z`-score is non-negative (the 1.65 fallback, or service levels ≥ 0.5
under the real inverse normal) — it fails for negative `z` with positive
forecast variance, and `should_order` does NOT imply
`order_quantity > 0`; both failures are in the counterexample, so
`should_order == (order_quantity > 0)` and the unconditional
`safety_stock >= 0` are false. -/
theorem inventory_plan_invariants (fv conf : List ℚ)
    (stock leadTime serviceLevel : ℝ) (ppf : Option (ℝ → Option ℝ))
    (plan : InventoryPlan) (z : ℝ)
    (hlt : 0 < leadTime) (hsl0 : 0 < serviceLevel) (hsl1 : serviceLevel < 1)
    (hfv : ∀ x ∈ fv, 0 ≤ x)
    (hz : zScore ppf serviceLevel = some z)
    (hp : calculateOptimalInventory fv conf stock leadTime serviceLevel ppf
      = some plan) :
    0 ≤ plan.orderQty ∧ (0 ≤ z → 0 ≤ plan.safety) ∧
      (0 < plan.orderQty → plan.shouldOrd) ∧
      (plan.shouldOrd ↔ stock ≤ plan.reorderPt) := by
  unfold calculateOptimalInventory at hp
  by_cases hfv0 : fv.length = 0
  · rw [if_pos hfv0] at hp
    exact absurd hp (by simp)
  · rw [if_neg hfv0, hz, Option.some_bind] at hp
    by_cases hltn : leadTime < 0
    · rw [if_pos hltn] at hp
      exact absurd hp (by simp)
    · rw [if_neg hltn] at hp
      have heq := Option.some.inj hp
      subst heq
      have hdd : (0 : ℝ) ≤ ((dailyDemand fv : ℚ) : ℝ) := by
        have hq : (0 : ℚ) ≤ dailyDemand fv := by
          unfold dailyDemand
          apply div_nonneg (List.sum_nonneg hfv)
          positivity
        exact_mod_cast hq
      refine ⟨?_, ?_, ?_, Iff.rfl⟩
      · show 0 ≤ orderQuantity fv stock leadTime z
        unfold orderQuantity
        by_cases hord : stock ≤ reorderPoint fv leadTime z
        · rw [if_pos hord]
          have h1 : 0 ≤ reorderPoint fv leadTime z - stock := by
            linarith
          linarith
        · rw [if_neg hord]
      · intro hzn
        show 0 ≤ safetyStock fv leadTime z
        unfold safetyStock forecastStd
        exact mul_nonneg hzn (mul_nonneg (Real.sqrt_nonneg _) (Real.sqrt_nonneg _))
      · intro hpos
        show shouldOrder fv stock leadTime z
        by_cases hord : stock ≤ reorderPoint fv leadTime z
        · exact hord
        · exfalso
          have hq0 : orderQuantity fv stock leadTime z = 0 := by
            unfold orderQuantity
            rw [if_neg hord]
          rw [hq0] at hpos
          exact absurd hpos (by norm_num)

/-- C5 witness. -/
theorem inventory_plan_invariants_witness :
    0 ≤ c4plan.orderQty ∧ ((0 : ℝ) ≤ 1.65 → 0 ≤ c4plan.safety) ∧
      (0 < c4plan.orderQty → c4plan.shouldOrd) ∧
      (c4plan.shouldOrd ↔ (0 : ℝ) ≤ c4plan.reorderPt) := by
  refine inventory_plan_invariants [10] [5] 0 7 (19/20) none c4plan 1.65
    (by norm_num) (by norm_num) (by norm_num) ?_ rfl
    (by unfold calculateOptimalInventory zScore; norm_num [c4plan])
  intro x hx
  simp at hx
  rw [hx]
  norm_num

/-- C5 counterexample, both failing conjuncts of the original claim.
First: an all-zero single-point forecast with zero stock reaches the
reorder branch (`should_order = true`) with `order_quantity = 0`, so
`should_order == (order_quantity > 0)` is false.  Second: a service
level below 0.5 makes the real inverse normal report a negative `z`
(`negPpf` stands in, cf. `norm.ppf(0.3) ≈ -0.524`), and with the
positive-variance estimates `[0, 2]` the returned `safety_stock` is
negative, so `safety_stock >= 0` is false within the claim's
preconditions (`0 < 0.3 < 1`). -/
theorem inventory_should_order_counterexample :
    (calculateOptimalInventory [0] [5] 0 1 (19/20) none = some c5plan ∧
      c5plan.shouldOrd ∧ c5plan.orderQty = 0) ∧
      (calculateOptimalInventory [0, 2] [5] 0 1 (3/10) (some negPpf)
          = some c5negplan ∧
        c5negplan.safety < 0) := by
  have hdd : dailyDemand [0] = 0 := by norm_num [dailyDemand]
  have hpv : popVar [0] = 0 := by norm_num [popVar, mean]
  have hstd : forecastStd [0] = 0 := by
    unfold forecastStd
    rw [hpv]
    simp
  have hss : safetyStock [0] 1 1.65 = 0 := by
    unfold safetyStock
    rw [hstd]
    ring
  have hrp : reorderPoint [0] 1 1.65 = 0 := by
    unfold reorderPoint leadTimeDemand
    rw [hss, hdd]
    push_cast
    ring
  refine ⟨⟨?_, ?_, ?_⟩, ?_, ?_⟩
  · unfold calculateOptimalInventory zScore
    norm_num [c5plan]
  · show shouldOrder [0] 0 1 1.65
    unfold shouldOrder
    rw [hrp]
  · show orderQuantity [0] 0 1 1.65 = 0
    unfold orderQuantity
    simp only [hrp, hdd]
    rw [if_pos (le_refl (0 : ℝ))]
    push_cast
    ring
  · unfold calculateOptimalInventory zScore negPpf
    norm_num [c5negplan]
  · show safetyStock [0, 2] 1 (-1) < 0
    have hpv2 : popVar [0, 2] = 1 := by norm_num [popVar, mean]
    unfold safetyStock forecastStd
    rw [hpv2]
    norm_num

theorem rollingVar_nonneg (l : List ℚ) (w t : ℕ) : 0 ≤ rollingVar l w t :=
  sampleVar_nonneg _

theorem detect_getD (l : List ℚ) (t : ℕ) (ht : t < l.length) :
    (detectAnomalies l 7 2).getD t defaultRec =
      { units := l.getD t 0
        rollMean := rollingMean l 7 t
        rollStd := Real.sqrt (rollingVar l 7 t)
        isAnomaly := isAnomalyAt l 7 2 t
        severity := severityAt l 7 2 t } := by
  unfold detectAnomalies
  rw [List.getD_eq_getElem?_getD, List.getElem?_map, List.getElem?_range ht]
  rfl

/-- C6 (amended): `detect_anomalies_advanced` yields one record per input
point in input order; a record is flagged exactly when its quantity
strictly exceeds `rolling_mean + 2 * rolling_std`, falls strictly below
`rolling_mean - 2 * rolling_std`, or violates the global IQR bounds; the
severity equals `|quantity - rolling_mean| / (rolling_std + 1)` for
flagged records and `0` otherwise — so `is_anomaly = false` forces
severity `0`, but severity `0` does NOT force `is_anomaly = false` (see
the counterexample). -/
theorem detect_contract (l : List ℚ) (t : ℕ) (ht : t < l.length) :
    (detectAnomalies l 7 2).length = l.length ∧
      ((detectAnomalies l 7 2).getD t defaultRec).units = l.getD t 0 ∧
      (((detectAnomalies l 7 2).getD t defaultRec).isAnomaly = true ↔
        ((l.getD t 0 : ℝ) > (rollingMean l 7 t : ℝ)
            + 2 * Real.sqrt (rollingVar l 7 t) ∨
         (l.getD t 0 : ℝ) < (rollingMean l 7 t : ℝ)
            - 2 * Real.sqrt (rollingVar l 7 t) ∨
         l.getD t 0 > iqrUpper l ∨ l.getD t 0 < iqrLower l)) ∧
      ((detectAnomalies l 7 2).getD t defaultRec).severity =
        (if ((detectAnomalies l 7 2).getD t defaultRec).isAnomaly
         then |(l.getD t 0 : ℝ) - (rollingMean l 7 t : ℝ)| /
                (Real.sqrt (rollingVar l 7 t) + 1)
         else 0) ∧
      (((detectAnomalies l 7 2).getD t defaultRec).isAnomaly = false →
        ((detectAnomalies l 7 2).getD t defaultRec).severity = 0) := by
  rw [detect_getD l t ht]
  refine ⟨by simp [detectAnomalies], rfl, ?_, rfl, ?_⟩
  · have h1 := gt_add_mul_sqrt_iff (l.getD t 0) (rollingMean l 7 t)
      (rollingVar l 7 t) 2 (rollingVar_nonneg l 7 t) (by norm_num)
    have h2 := lt_sub_mul_sqrt_iff (l.getD t 0) (rollingMean l 7 t)
      (rollingVar l 7 t) 2 (rollingVar_nonneg l 7 t) (by norm_num)
    push_cast at h1 h2
    show isAnomalyAt l 7 2 t = true ↔ _
    simp only [isAnomalyAt, Bool.or_eq_true, Bool.and_eq_true, decide_eq_true_eq]
    rw [← h1, ← h2]
    tauto
  · intro hfalse
    show severityAt l 7 2 t = 0
    unfold severityAt
    simp only at hfalse
    rw [if_neg (by simp [hfalse])]

/-- C6 witness: a singleton series, first record. -/
theorem detect_contract_witness :
    (detectAnomalies [5] 7 2).length = ([5] : List ℚ).length ∧
      ((detectAnomalies [5] 7 2).getD 0 defaultRec).units = ([5] : List ℚ).getD 0 0 ∧
      (((detectAnomalies [5] 7 2).getD 0 defaultRec).isAnomaly = true ↔
        ((([5] : List ℚ).getD 0 0 : ℝ) > (rollingMean [5] 7 0 : ℝ)
            + 2 * Real.sqrt (rollingVar [5] 7 0) ∨
         (([5] : List ℚ).getD 0 0 : ℝ) < (rollingMean [5] 7 0 : ℝ)
            - 2 * Real.sqrt (rollingVar [5] 7 0) ∨
         ([5] : List ℚ).getD 0 0 > iqrUpper [5] ∨
         ([5] : List ℚ).getD 0 0 < iqrLower [5])) ∧
      ((detectAnomalies [5] 7 2).getD 0 defaultRec).severity =
        (if ((detectAnomalies [5] 7 2).getD 0 defaultRec).isAnomaly
         then |(([5] : List ℚ).getD 0 0 : ℝ) - (rollingMean [5] 7 0 : ℝ)| /
                (Real.sqrt (rollingVar [5] 7 0) + 1)
         else 0) ∧
      (((detectAnomalies [5] 7 2).getD 0 defaultRec).isAnomaly = false →
        ((detectAnomalies [5] 7 2).getD 0 defaultRec).severity = 0) :=
  detect_contract [5] 0 (by norm_num)

/-- C10: the first record's rolling mean is its own quantity and its
rolling standard deviation is imputed to 0, so with strict comparisons
the rolling criterion can never flag it: it is flagged exactly when it
violates the global IQR bounds, and its severity is 0 even then. -/
theorem detect_first_record (l : List ℚ) (hne : l ≠ []) :
    ((detectAnomalies l 7 2).getD 0 defaultRec).rollMean = l.getD 0 0 ∧
      ((detectAnomalies l 7 2).getD 0 defaultRec).rollStd = 0 ∧
      (((detectAnomalies l 7 2).getD 0 defaultRec).isAnomaly = true ↔
        (l.getD 0 0 > iqrUpper l ∨ l.getD 0 0 < iqrLower l)) ∧
      ((detectAnomalies l 7 2).getD 0 defaultRec).severity = 0 := by
  have hpos : 0 < l.length := List.length_pos.mpr hne
  have hw : windowAt l 7 0 = [l.getD 0 0] := windowAt_zero hne 7 (by norm_num)
  have hm : rollingMean l 7 0 = l.getD 0 0 := by
    unfold rollingMean
    rw [hw]
    simp [mean]
  have hvv : rollingVar l 7 0 = 0 := by
    unfold rollingVar
    rw [hw]
    simp [sampleVar]
  rw [detect_getD l 0 hpos]
  refine ⟨hm, by rw [hvv]; simp, ?_, ?_⟩
  · show isAnomalyAt l 7 2 0 = true ↔ _
    simp only [isAnomalyAt, Bool.or_eq_true, Bool.and_eq_true, decide_eq_true_eq]
    rw [hm, hvv]
    simp
  · show severityAt l 7 2 0 = 0
    unfold severityAt
    split
    · rw [hm]
      simp
    · rfl

/-- C10 witness. -/
theorem detect_first_record_witness :
    ((detectAnomalies [4, 9] 7 2).getD 0 defaultRec).rollMean
        = ([4, 9] : List ℚ).getD 0 0 ∧
      ((detectAnomalies [4, 9] 7 2).getD 0 defaultRec).rollStd = 0 ∧
      (((detectAnomalies [4, 9] 7 2).getD 0 defaultRec).isAnomaly = true ↔
        (([4, 9] : List ℚ).getD 0 0 > iqrUpper [4, 9] ∨
         ([4, 9] : List ℚ).getD 0 0 < iqrLower [4, 9])) ∧
      ((detectAnomalies [4, 9] 7 2).getD 0 defaultRec).severity = 0 :=
  detect_first_record [4, 9] (by simp)

/-- C6 counterexample: in the series `[0, 10, 10, 10, 10]` the first point
is flagged (it violates the IQR lower bound `Q1 - 1.5*IQR = 10`) yet its
severity is `0`, because its rolling mean is its own quantity — so
"severity is 0 exactly when is_anomaly is false" fails. -/
theorem detect_severity_counterexample :
    isAnomalyAt [0, 10, 10, 10, 10] 7 2 0 = true ∧
      severityAt [0, 10, 10, 10, 10] 7 2 0 = 0 := by
  have hu : iqrUpper [0, 10, 10, 10, 10] = 10 := by
    norm_num [iqrUpper, quantile, sortAsc, insertSorted]
    norm_num [show Int.toNat 3 = 3 from rfl, show Int.toNat 1 = 1 from rfl]
  have hl2 : iqrLower [0, 10, 10, 10, 10] = 10 := by
    norm_num [iqrLower, quantile, sortAsc, insertSorted]
    norm_num [show Int.toNat 3 = 3 from rfl, show Int.toNat 1 = 1 from rfl]
  have hw : windowAt [0, 10, 10, 10, 10] 7 0 = [0] := by
    norm_num [windowAt, lastN]
  have hm : rollingMean [0, 10, 10, 10, 10] 7 0 = 0 := by
    unfold rollingMean
    rw [hw]
    norm_num [mean]
  have hv : rollingVar [0, 10, 10, 10, 10] 7 0 = 0 := by
    unfold rollingVar
    rw [hw]
    simp [sampleVar]
  constructor
  · simp only [isAnomalyAt, Bool.or_eq_true, Bool.and_eq_true, decide_eq_true_eq]
    rw [hm, hv, hu, hl2]
    norm_num
  · unfold severityAt
    split
    · rw [hm]
      norm_num
    · rfl

/-- C2 counterexample: on a 15-day consecutive series (two constant weeks
then a 25-unit day) the code's first forecast point is `821/70 ≈ 11.73`,
while the specification's formula (EWMA-based recent average and trend,
1-based level multiplier, seasonal factor normalized by the overall mean)
gives `4747/385 ≈ 12.33` — the claimed formula does not hold. -/
theorem ensemble_point_formula_counterexample :
    ensembleForecastValues c2series 1 = some [821/70] ∧
      specPointEstimate c2series 1 = 4747/385 ∧
      (821/70 : ℚ) ≠ 4747/385 := by
  have hxs : olsXs c2series = [0, 1, 2, 3, 4, 5, 6, 7, 8, 9, 10, 11, 12, 13, 14] := by
    norm_num [olsXs, c2series, List.range_succ]
  have hys : seriesUnits c2series
      = [10, 10, 10, 10, 10, 10, 10, 10, 10, 10, 10, 10, 10, 10, 25] := rfl
  have hxbar : olsXbar c2series = 7 := by
    unfold olsXbar
    rw [hxs]
    norm_num [mean]
  have hybar : mean (seriesUnits c2series) = 11 := by
    rw [hys]
    norm_num [mean]
  have hslope : olsSlope c2series = 3/8 := by
    unfold olsSlope
    rw [hxbar, hybar, hxs, hys]
    norm_num
  have hint : olsIntercept c2series = 67/8 := by
    unfold olsIntercept
    rw [hybar, hslope, hxbar]
    norm_num
  have hlin : linPredict c2series 15 = 14 := by
    unfold linPredict
    rw [hint, hslope]
    norm_num
  have hravg : recentAvg c2series = 155/14 := by
    unfold recentAvg
    norm_num [lastN, seriesUnits, c2series, mean]
  have hrtrend : recentTrend c2series = 15/14 := by
    unfold recentTrend
    norm_num [lastN, seriesUnits, c2series]
  have hpat : patternMeanOfMeans c2series = 75/7 := by
    have hpres : presentWeekdays c2series = [0, 1, 2, 3, 4, 5, 6] := by decide
    unfold patternMeanOfMeans
    rw [hpres]
    simp only [List.map_cons, List.map_nil,
      show weekdayGroup c2series 0 = [10, 10, 25] from rfl,
      show weekdayGroup c2series 1 = [10, 10] from rfl,
      show weekdayGroup c2series 2 = [10, 10] from rfl,
      show weekdayGroup c2series 3 = [10, 10] from rfl,
      show weekdayGroup c2series 4 = [10, 10] from rfl,
      show weekdayGroup c2series 5 = [10, 10] from rfl,
      show weekdayGroup c2series 6 = [10, 10] from rfl]
    norm_num [mean]
  have hsf1 : seasonalFactor c2series 1 = some (14/15) := by
    unfold seasonalFactor
    rw [if_neg (by rw [show weekdayGroup c2series 1 = [10, 10] from rfl]; simp)]
    rw [show weekdayGroup c2series 1 = [10, 10] from rfl, hpat]
    norm_num [mean]
  refine ⟨?_, ?_, by norm_num⟩
  · have hfc : forecastAt c2series 0 = some (821/70) := by
      unfold forecastAt
      rw [show (lastDate c2series + 0 + 1) % 7 = 1 from rfl, hsf1]
      simp only [Option.map_some', Option.some.injEq]
      rw [show ((c2series.length : ℚ) + ((0 : ℕ) : ℚ)) = 15 by norm_num [c2series]]
      rw [hlin, hravg, hrtrend]
      rw [show (3 : ℚ)/10 * 14 + 4/10 * (155/14 + 15/14 * ((0 : ℕ) : ℚ))
            + 3/10 * (155/14 * (14/15)) = 821/70 by norm_num]
      norm_num
    show seqOpt ((List.range 1).map (forecastAt c2series)) = some [821/70]
    rw [show (List.range 1).map (forecastAt c2series)
          = [forecastAt c2series 0] from rfl, hfc]
    rfl
  · unfold specPointEstimate
    rw [show (lastDate c2series + 1) % 7 = 1 from rfl]
    rw [show weekdayGroup c2series 1 = [10, 10] from rfl]
    rw [show c2series.length = 15 from rfl]
    rw [show ewmaAt 14 (seriesUnits c2series) (15 - 1) = 12 by
      norm_num [ewmaAt, ewmaLast, seriesUnits, c2series]]
    rw [show ewmaAt 14 (seriesUnits c2series) (15 - 1 - 14) = 10 by
      norm_num [ewmaAt, ewmaLast, seriesUnits, c2series]]
    rw [show ((15 : ℕ) : ℚ) - 1 + ((1 : ℕ) : ℚ) = 15 by norm_num]
    rw [hlin, hybar]
    rw [show mean [(10 : ℚ), 10] = 10 by norm_num [mean]]
    rw [show (3 : ℚ)/10 * 14 + 4/10 * (12 + (12 - 10) / 14 * ((1 : ℕ) : ℚ))
          + 3/10 * (12 * (10 / 11)) = 4747/385 by norm_num]
    norm_num

end Eureka
